import Mathlib

/-!
Shallow embedding of the fc-nixos maintenance request manager
(`fc/maintenance/request.py` and `fc/maintenance/reqmanager.py`).

Modelling conventions:
- Python `datetime` objects are modelled by `PyDateTime`: an integer time
  value plus a Boolean recording whether `tzinfo` is set.  Comparisons between
  datetimes compare the time value.
- The wall clock (`fc.util.time_date.utcnow()`) is passed explicitly as a
  `now : Int` argument.
- Python exceptions are modelled with `Except`; in-place object mutation is
  modelled by returning the updated object, and a function that both mutates
  and may raise returns the mutated object alongside the `Except` result.
- `dict` collections preserving insertion order are modelled as association
  lists `List (String × Request)`.
-/

namespace FcMaintenance

/-- The request lifecycle states (`fc/maintenance/state.py`, as used by
`request.py` and `reqmanager.py`). -/
inductive State
  | pending
  | due
  | running
  | success
  | tempfail
  | postpone
  | retrylimit
  | error
  | deleted
deriving DecidableEq, Repr

/-- A Python `datetime`: time value plus whether `tzinfo` is present. -/
structure PyDateTime where
  value : Int
  tzinfo : Bool
deriving DecidableEq, Repr

/-- Reboot classification exposed by activities
(`fc.maintenance.activity.RebootType`): cold (poweroff) or warm (reboot). -/
inductive RebootType
  | cold
  | warm
deriving DecidableEq, Repr

/-- The activity collaborator, modelled by its externally observable outcome
after `run()`: whether `run()` raises (and the exception message), the
outcome fields `stdout`, `stderr`, `returncode`, `duration`, and the
`reboot_needed` classification (`none` = no reboot). -/
structure Activity where
  runExc : Option String
  stdout : Option String
  stderr : Option String
  returncode : Option Int
  duration : Option Int
  reboot_needed : Option RebootType
deriving DecidableEq, Repr

/-- `Attempt`: record of one execution (`request.py`).  `started` is set at
construction; the other fields default to `None`. -/
structure Attempt where
  started : Int
  finished : Option Int := none
  duration : Option Int := none
  stdout : Option String := none
  stderr : Option String := none
  returncode : Option Int := none
deriving DecidableEq, Repr

/-- The `Request` state machine (`request.py`), with the fields the claims
exercise.  `dir` is modelled by the request id path component assigned by the
manager; the activity back-reference and logger are omitted (they are
explicitly excluded from persisted state). -/
structure Request where
  id : String
  state : State := State.pending
  next_due : Option PyDateTime := none
  attempts : List Attempt := []
  estimate : Nat
  comment : Option String := none
  activity : Activity
  added_at : Option Int := none
  last_scheduled_at : Option Int := none
  dir : Option String := none
deriving DecidableEq, Repr

/-- `Request.MAX_RETRIES`. -/
def MAX_RETRIES : Nat := 48

/-- `Request.__eq__`: same class and equal ids.  In this embedding every
request has class `Request`, so equality is equality of ids. -/
def reqEq (a b : Request) : Bool :=
  a.id == b.id

/-- `Request.__lt__`: order by `next_due` when both are set, a request with
`next_due` sorts before one without, and two requests without `next_due`
compare by id. -/
def reqLt (a b : Request) : Bool :=
  match a.next_due, b.next_due with
  | some d1, some d2 => d1.value < d2.value
  | some _, none => true
  | none, some _ => false
  | none, none => a.id < b.id

/-- The non-strict order used when sorting with Python `sorted` and
`__lt__`: `a ≤ b` iff `¬ (b < a)`. -/
def reqLe (a b : Request) : Bool :=
  !(reqLt b a)

/-- Truthiness of the `next_due` guard in `update_state`: `self.next_due`
is truthy iff it is a datetime (datetimes are always truthy), and
`utcnow() >= self.next_due` compares time values. -/
def dueNow (now : Int) : Option PyDateTime → Bool
  | some d => now ≥ d.value
  | none => false

/-- `Request.update_state`: sets `due` when a `pending`/`postpone` request's
due time has passed, then sets `retrylimit` when the attempt count exceeds
`MAX_RETRIES`; returns the updated request (the Python method mutates
`self.state` and returns it). -/
def Request.update_state (now : Int) (r : Request) : Request :=
  let r1 :=
    if (r.state == State.pending || r.state == State.postpone)
        && dueNow now r.next_due
    then {r with state := State.due}
    else r
  if r1.attempts.length > MAX_RETRIES then {r1 with state := State.retrylimit}
  else r1

/-- Python `TypeError`, carrying the message. -/
structure TypeError where
  msg : String
deriving DecidableEq, Repr

/-- `Request.update_due`: sets `next_due` from a datetime (or `None`; the
ISO-8601-literal branch goes through `iso8601.parse_date`, which always
returns a timezone-aware datetime, so it is subsumed by the datetime case
with `tzinfo = true`).  If the new value lacks a timezone, a `TypeError` is
raised — after `self.next_due` has already been overwritten.  Otherwise
`update_state` runs and the call returns whether `next_due` changed.  The
second component is the request as mutated by the call, also on error. -/
def Request.update_due (now : Int) (r : Request) (due : Option PyDateTime) :
    Except TypeError Bool × Request :=
  let old := r.next_due
  let r1 := {r with next_due := due}
  match r1.next_due with
  | some d =>
    if !d.tzinfo then
      (Except.error ⟨"next_due lacks time zone"⟩, r1)
    else
      let r2 := r1.update_state now
      (Except.ok (r2.next_due != old), r2)
  | none =>
    let r2 := r1.update_state now
    (Except.ok (r2.next_due != old), r2)

/-- Modelled from the spec: the exit-code classification `evaluate_state`
lives in `fc/maintenance/state.py`, which is not among the provided sources.
The spec requires a total mapping with zero → `success`, two reserved
non-zero codes → `postpone` / `tempfail`, everything else (including a
missing return code after an internal failure) → `error`.  The reserved
codes here follow the sysexits convention the agent uses. -/
def EXIT_POSTPONE : Int := 69

/-- Modelled from the spec: the reserved tempfail exit code
(see `EXIT_POSTPONE`). -/
def EXIT_TEMPFAIL : Int := 75

/-- Modelled from the spec: `evaluate_state` from `fc/maintenance/state.py`
(not in the provided sources): total classification of an activity's
return code into the post-execution state. -/
def evaluate_state : Option Int → State
  | some rc =>
    if rc = 0 then State.success
    else if rc = EXIT_POSTPONE then State.postpone
    else if rc = EXIT_TEMPFAIL then State.tempfail
    else State.error
  | none => State.error

/-- Truthiness of `activity.duration` in `Attempt.record`: a `None` or zero
duration is falsy. -/
def truthyDur : Option Int → Bool
  | some d => d != 0
  | none => false

/-- `Attempt.record(activity)`: sets `finished`, copies `stdout`, `stderr`
and `returncode` from the activity and fills `duration` from the activity
when truthy, else from the elapsed wall time (`self.started` is a datetime
set at construction, hence always truthy; `self.duration` is still `None`
here for a fresh attempt). -/
def Attempt.record (finishTime : Int) (a : Attempt) (act : Activity) :
    Attempt :=
  let a1 := {a with finished := some finishTime, stdout := act.stdout,
                    stderr := act.stderr, returncode := act.returncode}
  if truthyDur act.duration then {a1 with duration := act.duration}
  else if !truthyDur a1.duration then
    {a1 with duration := some (finishTime - a1.started)}
  else a1

/-- Environment of one `Request.execute` call: the wall clock at attempt
creation and at activity completion, and whether the two `save()` calls
raise (modelling I/O failure; the activity's own failure is part of
`Activity.runExc`). -/
structure ExecEnv where
  now : Int
  finishTime : Int
  saveFails : Bool
  finalSaveFails : Bool
deriving DecidableEq, Repr

/-- Body of the outer `try` block of `Request.execute`: set state `running`,
`save()` (which may raise), then inside `cd(self.dir)` run the activity,
catching any exception it raises by stamping return code 70 (`EX_SOFTWARE`)
and the exception text on the attempt; append the attempt and recompute the
state from the activity's return code via `evaluate_state`. -/
def executeBody (env : ExecEnv) (r : Request) (attempt : Attempt) :
    Except String Request := do
  let r := {r with state := State.running}
  if env.saveFails then throw "save failed"
  let attempt :=
    match r.activity.runExc with
    | none => attempt.record env.finishTime r.activity
    | some e => {attempt with returncode := some 70, stderr := some e}
  let r := {r with attempts := r.attempts ++ [attempt]}
  return {r with state := evaluate_state r.activity.returncode}

/-- `Request.execute`: creates a fresh `Attempt` (capturing the start time),
runs `executeBody` and catches any exception from it by forcing the state to
`error` (the mutations made before the exception — here only the transition
to `running` — stay in place, the attempt is not appended).  The final
`save()` has its exception swallowed, so it never changes the outcome.  The
function is total: no exception propagates to the caller. -/
def Request.execute (env : ExecEnv) (r : Request) : Request :=
  let attempt : Attempt := {started := env.now}
  match executeBody env r attempt with
  | Except.ok r1 => r1
  | Except.error _ => {r with state := State.error}

namespace ReqManager

/-- Insertion into the `requests` dict: replace the value when the key is
present, else append at the end (Python dict semantics). -/
def dictInsert (l : List (String × Request)) (k : String) (v : Request) :
    List (String × Request) :=
  if l.any (fun p => p.1 == k) then
    l.map (fun p => if p.1 == k then (k, v) else p)
  else l ++ [(k, v)]

/-- Truthiness of `request.comment`: a non-`None`, non-empty string. -/
def truthyStr : Option String → Bool
  | some s => s != ""
  | none => false

/-- `ReqManager.find_by_comment`: first request whose comment equals the
given one, or `None`. -/
def find_by_comment (reqs : List (String × Request))
    (comment : Option String) : Option Request :=
  (reqs.find? (fun p => p.2.comment == comment)).map (fun p => p.2)

/-- `ReqManager.add`: skip when `skip_same_comment` is set, the request has
a truthy comment and some queued request shares it; otherwise register the
request under its id, assign its directory, stamp `added_at` and persist it.
Returns the added request (or `none`), the updated collection, and the list
of persisted request ids. -/
def add (now : Int) (reqs : List (String × Request))
    (request : Option Request) (skip_same_comment : Bool) :
    Option Request × List (String × Request) × List String :=
  match request with
  | none => (none, reqs, [])
  | some request =>
    if skip_same_comment && truthyStr request.comment
        && (find_by_comment reqs request.comment).isSome then
      (none, reqs, [])
    else
      let req1 := {request with dir := some request.id,
                                added_at := some now}
      (some req1, dictInsert reqs request.id req1, [request.id])

/-- One entry of the `schedule_maintenance` response: whether the `"time"`
key is present (its absence raises `KeyError` on `val["time"]`), and, when
present, the due value handed to `update_due` (`none` clears the due date;
a wire value arrives as an ISO literal, which `iso8601.parse_date` turns
into a timezone-aware datetime). -/
structure RespVal where
  hasTime : Bool
  time : Option PyDateTime
deriving DecidableEq, Repr

/-- The loop body of `ReqManager.schedule` over `result.items()`: for each
response key, look the request up locally and read `val["time"]` — a
`KeyError` from either adds the key to `disappeared`; otherwise
`update_due` runs (a `TypeError` from it propagates), and when the due date
changed, `last_scheduled_at` is stamped and the request saved.  Returns the
updated collection, the `disappeared` keys and the saved ids. -/
def scheduleLoop (now : Int) (reqs : List (String × Request)) :
    List (String × RespVal) →
    Except TypeError (List (String × Request) × List String × List String)
  | [] => Except.ok (reqs, [], [])
  | (key, val) :: rest =>
    match reqs.lookup key with
    | some req =>
      if val.hasTime then
        match req.update_due now val.time with
        | (Except.error e, _) => Except.error e
        | (Except.ok changed, req1) =>
          let req2 :=
            if changed then {req1 with last_scheduled_at := some now}
            else req1
          match scheduleLoop now (dictInsert reqs key req2) rest with
          | Except.error e => Except.error e
          | Except.ok (m, dis, saved) =>
            Except.ok (m, dis, if changed then key :: saved else saved)
      else
        match scheduleLoop now reqs rest with
        | Except.error e => Except.error e
        | Except.ok (m, dis, saved) => Except.ok (m, key :: dis, saved)
    | none =>
      match scheduleLoop now reqs rest with
      | Except.error e => Except.error e
      | Except.ok (m, dis, saved) => Except.ok (m, key :: dis, saved)

/-- `ReqManager.schedule`, after the `schedule_maintenance` RPC returned
`response`: runs the loop over the response items and, iff `disappeared` is
non-empty, issues `end_maintenance` with `{"result": "deleted"}` for each
disappeared key (`none` = the RPC is not made). -/
def schedule (now : Int) (reqs : List (String × Request))
    (response : List (String × RespVal)) :
    Except TypeError
      (List (String × Request) × Option (List (String × String)) ×
        List String) :=
  (scheduleLoop now reqs response).map fun (m, dis, saved) =>
    (m,
     if dis.isEmpty then none
     else some (dis.map fun k => (k, "deleted")),
     saved)

/-- `ReqManager.runnable`: refresh every request's time-driven state via
`update_state`, yield the `running` ones during the scan (hence before all
others, in collection order), collect the `due`/`tempfail` ones and yield
them afterwards sorted by the `Request` order (`sorted` uses `__lt__`;
`mergeSort` with `reqLe` is a stable ascending sort, as Python's). -/
def runnable (now : Int) (reqs : List Request) : List Request :=
  let refreshed := reqs.map (Request.update_state now)
  (refreshed.filter fun r => r.state == State.running) ++
    (refreshed.filter fun r =>
      r.state == State.due || r.state == State.tempfail).mergeSort reqLe

/-- `ReqManager.reboot`: a cold reboot is issued when `RebootType.COLD` is
among the requested reboots, else a warm one when `RebootType.WARM` is, else
nothing; the Python method returns whether a reboot was issued. -/
def rebootDecision (requested : List (Option RebootType)) :
    Option RebootType :=
  if requested.contains (some RebootType.cold) then some RebootType.cold
  else if requested.contains (some RebootType.warm) then some RebootType.warm
  else none

/-- Outcome of the post-selection part of `ReqManager.execute`: the executed
requests, the accumulated `requested_reboots` (as a list, in execution
order), which reboot was issued, and whether `leave_maintenance` ran. -/
structure BatchOutcome where
  executed : List Request
  requested : List (Option RebootType)
  rebootIssued : Option RebootType
  leftMaintenance : Bool
deriving Repr

/-- The batch loop of `ReqManager.execute` over the runnable requests (each
paired with its execution environment): execute each request in turn, and
for each whose state is then `success` add its activity's `reboot_needed` to
`requested_reboots`; afterwards issue the reboot decided by
`ReqManager.reboot` and call `leave_maintenance` iff no reboot was issued. -/
def executeBatch (batch : List (Request × ExecEnv)) : BatchOutcome :=
  let executed := batch.map fun p => p.1.execute p.2
  let requested :=
    (executed.filter fun r => r.state == State.success).map
      fun r => r.activity.reboot_needed
  let issued := rebootDecision requested
  { executed := executed, requested := requested, rebootIssued := issued,
    leftMaintenance := issued.isNone }

/-- `ReqManager.postpone`: collect the requests in `postpone` state; when
none, return without calling the directory; otherwise call
`postpone_maintenance` with `postpone_by` twice each request's integer
estimate, then clear each postponed request's due date via
`update_due(None)` and save it.  Returns the RPC argument (`none` = RPC not
made), the updated collection and the saved ids. -/
def postpone (now : Int) (reqs : List (String × Request)) :
    Option (List (String × Nat)) × List (String × Request) × List String :=
  let postponed := reqs.filter fun p => p.2.state == State.postpone
  if postponed.isEmpty then (none, reqs, [])
  else
    (some (postponed.map fun p => (p.2.id, 2 * p.2.estimate)),
     reqs.map fun p =>
       if p.2.state == State.postpone then
         (p.1, (p.2.update_due now none).2)
       else p,
     postponed.map fun p => p.1)

end ReqManager

/-! ## Sample concrete objects used by witnesses and counterexamples -/

/-- An activity whose `run()` returns normally with no outcome fields set. -/
def act0 : Activity :=
  { runExc := none, stdout := none, stderr := none, returncode := none,
    duration := none, reboot_needed := none }

/-- A fresh attempt started at time 0. -/
def attempt0 : Attempt := {started := 0}

/-- A deleted request that already has 49 recorded attempts. -/
def rDel : Request :=
  { id := "del", state := State.deleted,
    attempts := List.replicate 49 attempt0, estimate := 10,
    activity := act0 }

/-! ## General lemmas about the embedded operations -/

/-- `update_state` never changes the attempt history. -/
theorem update_state_attempts (now : Int) (r : Request) :
    (r.update_state now).attempts = r.attempts := by
  unfold Request.update_state
  dsimp only
  split <;> split <;> rfl

/-- `update_state` never changes `next_due`. -/
theorem update_state_next_due (now : Int) (r : Request) :
    (r.update_state now).next_due = r.next_due := by
  unfold Request.update_state
  dsimp only
  split <;> split <;> rfl

/-- Past the retry ceiling, `update_state` always answers `retrylimit`. -/
theorem update_state_retrylimit (now : Int) (r : Request)
    (h : r.attempts.length > MAX_RETRIES) :
    (r.update_state now).state = State.retrylimit := by
  unfold Request.update_state
  dsimp only
  split <;> simp [h]

/-! ## C1 -/

/-- C1, counterexample: the claim exempts prior state `deleted` from the
retry-limit transition, but `update_state` sets `retrylimit` from `deleted`
as well: a deleted request with 49 attempts comes back `retrylimit`. -/
theorem c1_counterexample :
    rDel.state = State.deleted ∧
    rDel.attempts.length > MAX_RETRIES ∧
    (rDel.update_state 0).state = State.retrylimit := by
  refine ⟨rfl, by decide, ?_⟩
  decide

/-- C1 (amended): for every request with more than 48 recorded attempts,
`update_state()` yields `retrylimit` regardless of the prior state —
including `deleted` — and repeated `update_state` calls keep the request in
`retrylimit`. -/
theorem c1_retrylimit_terminal (now later : Int) (r : Request)
    (h : r.attempts.length > MAX_RETRIES) :
    (r.update_state now).state = State.retrylimit ∧
    ((r.update_state now).update_state later).state = State.retrylimit := by
  refine ⟨update_state_retrylimit now r h, ?_⟩
  apply update_state_retrylimit
  rw [update_state_attempts]
  exact h

/-- C1 witness: the amended theorem applied to the concrete 49-attempt
request `rDel`. -/
theorem c1_witness :
    (rDel.update_state 0).state = State.retrylimit ∧
    ((rDel.update_state 0).update_state 7).state = State.retrylimit :=
  c1_retrylimit_terminal 0 7 rDel (by decide)

/-! ## C3 -/

/-- C3: `Request.execute` contains all failures (it is a total function of
the request and its environment, so no exception reaches the caller):
when the initial `save()` succeeds, an exception from the activity's
`run()` is caught and recorded as a failed attempt carrying return code 70
(`EX_SOFTWARE`) and the exception text, and the new state is the activity's
own exit-code classification — hence `error` when the activity never set a
return code; an unexpected exception in the surrounding bookkeeping (the
`save()` call) forces the state to `error` instead of propagating. -/
theorem c3_execute_never_propagates (env : ExecEnv) (r : Request) :
    (∀ e, r.activity.runExc = some e → env.saveFails = false →
      (r.execute env).attempts =
        r.attempts ++
          [{started := env.now, stderr := some e, returncode := some 70}] ∧
      (r.execute env).state = evaluate_state r.activity.returncode ∧
      (r.activity.returncode = none →
        (r.execute env).state = State.error)) ∧
    (env.saveFails = true →
      (r.execute env).state = State.error ∧
      (r.execute env).attempts = r.attempts) := by
  constructor
  · intro e he hs
    unfold Request.execute executeBody
    simp [he, hs, pure, Except.pure, bind, Except.bind, evaluate_state]
    intro hrc
    simp [hrc]
  · intro hs
    unfold Request.execute executeBody
    simp [hs, pure, Except.pure, bind, Except.bind]

/-- C3 witness: a request whose activity raises "boom" and leaves no return
code; `execute` yields the 70-coded attempt and state `error`. -/
theorem c3_witness :
    (({ id := "x", estimate := 5,
        activity := { act0 with runExc := some "boom" } : Request}.execute
        { now := 3, finishTime := 9, saveFails := false,
          finalSaveFails := false }).attempts =
      [{started := 3, stderr := some "boom", returncode := some 70}] ∧
     ({ id := "x", estimate := 5,
        activity := { act0 with runExc := some "boom" } : Request}.execute
        { now := 3, finishTime := 9, saveFails := false,
          finalSaveFails := false }).state = State.error) := by
  have h := (c3_execute_never_propagates
    { now := 3, finishTime := 9, saveFails := false, finalSaveFails := false }
    { id := "x", estimate := 5,
      activity := { act0 with runExc := some "boom" } }).1 "boom" rfl rfl
  exact ⟨h.1, h.2.2 rfl⟩

/-! ## C4 -/

/-- C4: two requests are equal (`__eq__`) iff their ids are equal, and the
`__lt__` order sorts by due time when both have one, puts a timed request
before an untimed one, and breaks ties between untimed requests by id. -/
theorem c4_eq_and_order (a b : Request) :
    (reqEq a b = true ↔ a.id = b.id) ∧
    (∀ d1 d2, a.next_due = some d1 → b.next_due = some d2 →
      (reqLt a b = true ↔ d1.value < d2.value)) ∧
    (a.next_due.isSome = true → b.next_due = none → reqLt a b = true) ∧
    (a.next_due = none → b.next_due.isSome = true → reqLt a b = false) ∧
    (a.next_due = none → b.next_due = none →
      (reqLt a b = true ↔ a.id < b.id)) := by
  refine ⟨by simp [reqEq], ?_, ?_, ?_, ?_⟩
  · intro d1 d2 h1 h2
    simp [reqLt, h1, h2]
  · intro h1 h2
    obtain ⟨d1, hd⟩ := Option.isSome_iff_exists.mp h1
    simp [reqLt, hd, h2]
  · intro h1 h2
    obtain ⟨d2, hd⟩ := Option.isSome_iff_exists.mp h2
    simp [reqLt, h1, hd]
  · intro h1 h2
    simp [reqLt, h1, h2]

/-- C4 witness: the order and equality facts applied to two concrete
requests, one due at time 4 and one undated. -/
theorem c4_witness :
    reqLt { id := "a", next_due := some ⟨4, true⟩, estimate := 1,
            activity := act0 : Request}
          { id := "b", estimate := 1, activity := act0 : Request} = true ∧
    (reqEq { id := "a", next_due := some ⟨4, true⟩, estimate := 1,
             activity := act0 : Request}
           { id := "b", estimate := 1, activity := act0 : Request} = true ↔
      "a" = "b") := by
  refine ⟨?_, ?_⟩
  · exact (c4_eq_and_order _ _).2.2.1 (by decide) rfl
  · exact (c4_eq_and_order _ _).1

/-! ## C8 -/

/-- C8, counterexample: when the activity raises, the caught exception path
skips `Attempt.record`, so the appended attempt is *not* finalized: its
`finished` and `duration` stay unset, against the claim that the attempt is
finalized whether the activity returned normally or raised. -/
theorem c8_counterexample :
    ({ id := "x", estimate := 5,
       activity := { act0 with runExc := some "boom" } : Request}.execute
       { now := 3, finishTime := 9, saveFails := false,
         finalSaveFails := false }).attempts =
      [{ started := 3, finished := none, duration := none, stdout := none,
         stderr := some "boom", returncode := some 70 }] := by
  decide

/-- C8 (amended): with the initial `save()` succeeding, when the activity
returns normally the appended attempt is finalized by `Attempt.record` —
`finished` is set to the completion time and `duration` is taken from the
activity when it supplies a truthy (nonzero) one, else computed as the
elapsed wall time; when the activity's exception is caught, the appended
attempt keeps `finished` and `duration` unset. -/
theorem c8_attempt_finalization (env : ExecEnv) (r : Request)
    (hs : env.saveFails = false) :
    (r.activity.runExc = none →
      (r.execute env).attempts =
        r.attempts ++
          [Attempt.record env.finishTime {started := env.now} r.activity] ∧
      (Attempt.record env.finishTime {started := env.now}
        r.activity).finished = some env.finishTime ∧
      (Attempt.record env.finishTime {started := env.now}
        r.activity).duration =
        (if truthyDur r.activity.duration then r.activity.duration
         else some (env.finishTime - env.now))) ∧
    (∀ e, r.activity.runExc = some e →
      (r.execute env).attempts =
        r.attempts ++
          [{ started := env.now, finished := none, duration := none,
             stdout := none, stderr := some e, returncode := some 70 }]) := by
  constructor
  · intro hrun
    refine ⟨?_, ?_, ?_⟩
    · unfold Request.execute executeBody
      simp [hrun, hs, pure, Except.pure, bind, Except.bind]
    · unfold Attempt.record
      dsimp only
      split <;> simp [truthyDur]
    · unfold Attempt.record
      dsimp only
      split <;> simp [truthyDur, *]
  · intro e he
    unfold Request.execute executeBody
    simp [he, hs, pure, Except.pure, bind, Except.bind]

/-- C8 witness: a normally returning activity that supplies no duration of
its own; the attempt is finalized with the elapsed wall time 9 - 3 = 6. -/
theorem c8_witness :
    ({ id := "x", estimate := 5, activity := act0 : Request}.execute
        { now := 3, finishTime := 9, saveFails := false,
          finalSaveFails := false }).attempts =
      [Attempt.record 9 {started := 3} act0] ∧
    (Attempt.record 9 {started := 3} act0).finished = some 9 ∧
    (Attempt.record 9 {started := 3} act0).duration = some 6 := by
  have h := (c8_attempt_finalization
    { now := 3, finishTime := 9, saveFails := false, finalSaveFails := false }
    { id := "x", estimate := 5, activity := act0 } rfl).1 rfl
  refine ⟨h.1, h.2.1, ?_⟩
  have h3 := h.2.2
  simpa [truthyDur, act0] using h3

/-! ## C10 -/

/-- C10: `update_due` is not atomic on error — a timezone-less datetime
raises `TypeError`, but `next_due` has already been overwritten with the
offending value, so (whenever the request started from a well-formed
`next_due`: absent or timezone-aware) the request is left with a `next_due`
different from the one it held before the call. -/
theorem c10_update_due_not_atomic (now : Int) (r : Request) (d : PyDateTime)
    (htz : d.tzinfo = false)
    (hwf : r.next_due = none ∨
      ∃ d0, r.next_due = some d0 ∧ d0.tzinfo = true) :
    (r.update_due now (some d)).1 =
      Except.error ⟨"next_due lacks time zone"⟩ ∧
    (r.update_due now (some d)).2 = {r with next_due := some d} ∧
    (r.update_due now (some d)).2.next_due ≠ r.next_due := by
  unfold Request.update_due
  dsimp only
  simp only [htz]
  refine ⟨rfl, rfl, ?_⟩
  show some d ≠ r.next_due
  rcases hwf with h | ⟨d0, h, htz0⟩
  · simp [h]
  · rw [h]
    intro hc
    rw [Option.some_inj] at hc
    rw [← hc] at htz0
    rw [htz] at htz0
    cases htz0

/-- C10 witness: a request with no due date handed the timezone-less value
5 — the error is raised and the overwritten `next_due` differs from the old
one. -/
theorem c10_witness :
    (({ id := "w", estimate := 2, activity := act0 : Request}.update_due 0
        (some ⟨5, false⟩)).1 =
      Except.error ⟨"next_due lacks time zone"⟩ ∧
     ({ id := "w", estimate := 2, activity := act0 : Request}.update_due 0
        (some ⟨5, false⟩)).2 =
      {{ id := "w", estimate := 2, activity := act0 : Request} with
        next_due := some ⟨5, false⟩} ∧
     (({ id := "w", estimate := 2, activity := act0 : Request}.update_due 0
        (some ⟨5, false⟩)).2.next_due ≠
      ({ id := "w", estimate := 2, activity := act0 : Request} :
        Request).next_due)) :=
  c10_update_due_not_atomic 0
    { id := "w", estimate := 2, activity := act0 } ⟨5, false⟩ rfl
    (Or.inl rfl)

/-- Clearing the due date via `update_due(None)` leaves `next_due` unset
(`update_state` never touches it). -/
theorem update_due_none_next_due (now : Int) (r : Request) :
    (r.update_due now none).2.next_due = none := by
  unfold Request.update_due
  dsimp only
  rw [update_state_next_due]

/-! ## C6 -/

/-- C6: after a batch, `requested_reboots` holds exactly the
`reboot_needed` classifications of the requests whose post-execution state
is `success`; a cold-reboot requirement wins over any warm one; and
`leave_maintenance` runs iff no reboot was issued. -/
theorem c6_reboot_precedence (batch : List (Request × ExecEnv)) :
    (∀ v, v ∈ (ReqManager.executeBatch batch).requested ↔
      ∃ p ∈ batch, (p.1.execute p.2).state = State.success ∧
        (p.1.execute p.2).activity.reboot_needed = v) ∧
    (some RebootType.cold ∈ (ReqManager.executeBatch batch).requested →
      (ReqManager.executeBatch batch).rebootIssued =
        some RebootType.cold) ∧
    ((ReqManager.executeBatch batch).leftMaintenance = true ↔
      (ReqManager.executeBatch batch).rebootIssued = none) := by
  refine ⟨?_, ?_, ?_⟩
  · intro v
    simp only [ReqManager.executeBatch, List.mem_map, List.mem_filter,
      beq_iff_eq]
    constructor
    · rintro ⟨r, ⟨⟨p, hp, rfl⟩, hsucc⟩, hv⟩
      exact ⟨p, hp, hsucc, hv⟩
    · rintro ⟨p, hp, hsucc, hv⟩
      exact ⟨p.1.execute p.2, ⟨⟨p, hp, rfl⟩, hsucc⟩, hv⟩
  · intro h
    simp only [ReqManager.executeBatch, ReqManager.rebootDecision]
    rw [if_pos]
    rw [List.contains_iff_exists_mem_beq]
    exact ⟨some RebootType.cold, h, by simp⟩
  · simp [ReqManager.executeBatch, Option.isNone_iff_eq_none]

/-- An activity that exits 0 and requires a cold reboot. -/
def actCold : Activity :=
  { act0 with returncode := some 0, reboot_needed := some RebootType.cold }

/-- An activity that exits 0 and requires a warm reboot. -/
def actWarm : Activity :=
  { act0 with returncode := some 0, reboot_needed := some RebootType.warm }

/-- An execution environment where both saves succeed. -/
def envOk : ExecEnv :=
  { now := 0, finishTime := 1, saveFails := false, finalSaveFails := false }

/-- The Scenario D batch: a succeeding cold-reboot request and a succeeding
warm-reboot request. -/
def batchD : List (Request × ExecEnv) :=
  [({ id := "rc", estimate := 1, activity := actCold }, envOk),
   ({ id := "wr", estimate := 1, activity := actWarm }, envOk)]

/-- C6 witness (Scenario D): with a successful cold-reboot request and a
successful warm-reboot request in the same batch, the cold reboot is
issued. -/
theorem c6_witness :
    (ReqManager.executeBatch batchD).rebootIssued = some RebootType.cold :=
  (c6_reboot_precedence batchD).2.1 (by decide)

/-! ## C7 -/

/-- C7: `postpone()` sends the remote service exactly the requests whose
state is `postpone`, with `postpone_by` twice their integer estimate (no
RPC at all when there is none), and each such request's due date is cleared
locally and the request saved. -/
theorem c7_postpone (now : Int) (reqs : List (String × Request)) :
    ((ReqManager.postpone now reqs).1 = none ↔
      ∀ p ∈ reqs, p.2.state ≠ State.postpone) ∧
    (∀ l, (ReqManager.postpone now reqs).1 = some l →
      l = (reqs.filter fun p => p.2.state == State.postpone).map
            fun p => (p.2.id, 2 * p.2.estimate)) ∧
    (∀ k r, (k, r) ∈ reqs → r.state = State.postpone →
      (k, (r.update_due now none).2) ∈ (ReqManager.postpone now reqs).2.1 ∧
      (r.update_due now none).2.next_due = none ∧
      k ∈ (ReqManager.postpone now reqs).2.2) := by
  refine ⟨?_, ?_, ?_⟩
  · unfold ReqManager.postpone
    dsimp only
    split
    · rename_i hemp
      simp only [List.isEmpty_iff] at hemp
      rw [List.filter_eq_nil_iff] at hemp
      simpa using hemp
    · rename_i hemp
      simp only [List.isEmpty_iff] at hemp
      constructor
      · intro h
        exact absurd h (by simp)
      · intro hall
        exfalso
        apply hemp
        rw [List.filter_eq_nil_iff]
        intro p hp
        simpa using hall p hp
  · intro l hl
    unfold ReqManager.postpone at hl
    dsimp only at hl
    split at hl
    · exact absurd hl (by simp)
    · simpa using hl.symm
  · intro k r hmem hstate
    have hne : (reqs.filter
        fun p => p.2.state == State.postpone).isEmpty = false := by
      rw [List.isEmpty_eq_false]
      intro hnil
      rw [List.filter_eq_nil_iff] at hnil
      exact absurd (by simpa using hstate :
        ((k, r).2.state == State.postpone) = true) (hnil (k, r) hmem)
    refine ⟨?_, update_due_none_next_due now r, ?_⟩
    · unfold ReqManager.postpone
      dsimp only
      rw [if_neg (by simp [hne])]
      dsimp only
      have := List.mem_map_of_mem
        (f := fun p : String × Request =>
          if p.2.state == State.postpone then
            (p.1, (p.2.update_due now none).2)
          else p) hmem
      simpa [hstate] using this
    · unfold ReqManager.postpone
      dsimp only
      rw [if_neg (by simp [hne])]
      dsimp only
      have hfil : (k, r) ∈ reqs.filter
          fun p => p.2.state == State.postpone :=
        List.mem_filter.mpr ⟨hmem, by simpa using hstate⟩
      exact List.mem_map_of_mem (f := fun p : String × Request => p.1) hfil

/-- A request sitting in `postpone` state with estimate 30, due at 50. -/
def reqP : Request :=
  { id := "p1", state := State.postpone, next_due := some ⟨50, true⟩,
    estimate := 30, activity := act0 }

/-- C7 witness (Scenario F): one postponed request with estimate 30 — the
remote receives `postpone_by = 60` and the local due date is cleared. -/
theorem c7_witness :
    (∀ l, (ReqManager.postpone 0 [("p1", reqP)]).1 = some l →
      l = [("p1", 60)]) ∧
    ("p1", (reqP.update_due 0 none).2) ∈
      (ReqManager.postpone 0 [("p1", reqP)]).2.1 ∧
    (reqP.update_due 0 none).2.next_due = none := by
  have h := c7_postpone 0 [("p1", reqP)]
  have h3 := h.2.2 "p1" reqP (by simp) rfl
  refine ⟨?_, h3.1, h3.2.1⟩
  intro l hl
  have := h.2.1 l hl
  simpa [reqP] using this

/-! ## C9 -/

/-- C9: `add` with `skip_same_comment` set and a non-empty comment shared
with a queued request adds nothing and leaves the collection unchanged;
with `skip_same_comment` unset it always registers the request under its
id, assigns its directory, stamps `added_at` and persists it. -/
theorem c9_add (now : Int) (reqs : List (String × Request))
    (request : Request) :
    (∀ c, request.comment = some c → c ≠ "" →
      (∃ p ∈ reqs, p.2.comment = some c) →
      ReqManager.add now reqs (some request) true = (none, reqs, [])) ∧
    (ReqManager.add now reqs (some request) false =
      (some {request with dir := some request.id, added_at := some now},
       ReqManager.dictInsert reqs request.id
         {request with dir := some request.id, added_at := some now},
       [request.id])) := by
  constructor
  · intro c hc hne hdup
    unfold ReqManager.add
    dsimp only
    rw [if_pos]
    rw [Bool.and_eq_true]
    constructor
    · rw [hc]
      simpa [ReqManager.truthyStr] using hne
    · unfold ReqManager.find_by_comment
      rw [Option.isSome_map']
      rw [List.find?_isSome]
      obtain ⟨p, hp, hpc⟩ := hdup
      exact ⟨p, hp, by simp [hpc, hc]⟩
  · unfold ReqManager.add
    dsimp only
    rw [if_neg (by simp)]

/-- Replacing an existing key with `dictInsert` does not change which keys
are present in the collection. -/
theorem lookup_isSome_dictInsert (l : List (String × Request)) (k0 : String)
    (v : Request) (h : (l.lookup k0).isSome = true) (k : String) :
    ((ReqManager.dictInsert l k0 v).lookup k).isSome = true ↔
      (l.lookup k).isSome = true := by
  have hany : l.any (fun p => p.1 == k0) = true := by
    rw [List.any_eq_true]
    obtain ⟨p, hp, hk⟩ := List.lookup_isSome_iff.mp h
    have : k0 = p.1 := by simpa using hk
    exact ⟨p, hp, by simp [this]⟩
  unfold ReqManager.dictInsert
  rw [if_pos hany]
  simp only [List.lookup_isSome_iff, List.mem_map]
  constructor
  · rintro ⟨p, ⟨q, hq, rfl⟩, hk⟩
    refine ⟨q, hq, ?_⟩
    by_cases hq0 : (q.1 == k0) = true
    · have hq1 : q.1 = k0 := by simpa using hq0
      rw [if_pos hq0] at hk
      simpa [hq1] using hk
    · rw [if_neg hq0] at hk
      exact hk
  · rintro ⟨q, hq, hk⟩
    refine ⟨if q.1 == k0 then (k0, v) else q, ⟨q, hq, rfl⟩, ?_⟩
    by_cases hq0 : (q.1 == k0) = true
    · have hq1 : q.1 = k0 := by simpa using hq0
      rw [if_pos hq0]
      simpa [hq1] using hk
    · rw [if_neg hq0]
      exact hk

/-- The keys that `scheduleLoop` collects as disappeared are exactly the
response keys whose local lookup or `"time"` entry fails. -/
theorem scheduleLoop_disappeared (now : Int) :
    ∀ (resp : List (String × ReqManager.RespVal))
      (reqs : List (String × Request))
      (m : List (String × Request)) (dis saved : List String),
      ReqManager.scheduleLoop now reqs resp = Except.ok (m, dis, saved) →
      ∀ k, k ∈ dis ↔
        ∃ v, (k, v) ∈ resp ∧
          ¬(((reqs.lookup k).isSome = true) ∧ v.hasTime = true) := by
  intro resp
  induction resp with
  | nil =>
    intro reqs m dis saved h k
    simp only [ReqManager.scheduleLoop] at h
    have h2 : ([] : List String) = dis := by
      injection h with h3
      exact congrArg (fun p => p.2.1) h3
    rw [← h2]
    simp
  | cons hd rest ih =>
    obtain ⟨key, val⟩ := hd
    intro reqs m dis saved h k
    simp only [ReqManager.scheduleLoop] at h
    cases hlk : reqs.lookup key with
    | none =>
      rw [hlk] at h
      cases hrec : ReqManager.scheduleLoop now reqs rest with
      | error e => rw [hrec] at h; cases h
      | ok t =>
        obtain ⟨m0, dis0, saved0⟩ := t
        rw [hrec] at h
        have h2 : key :: dis0 = dis := by
          injection h with h3
          exact congrArg (fun p => p.2.1) h3
        rw [← h2, List.mem_cons, ih reqs m0 dis0 saved0 hrec k]
        constructor
        · rintro (rfl | ⟨v, hv, hnv⟩)
          · exact ⟨val, List.mem_cons_self _ _, by simp [hlk]⟩
          · exact ⟨v, List.mem_cons_of_mem _ hv, hnv⟩
        · rintro ⟨v, hv, hnv⟩
          rcases List.mem_cons.mp hv with hv1 | hv2
          · left
            exact congrArg Prod.fst hv1
          · right
            exact ⟨v, hv2, hnv⟩
    | some req =>
      rw [hlk] at h
      cases hvt : val.hasTime with
      | false =>
        rw [hvt] at h
        simp only [Bool.false_eq_true, if_false] at h
        cases hrec : ReqManager.scheduleLoop now reqs rest with
        | error e => rw [hrec] at h; cases h
        | ok t =>
          obtain ⟨m0, dis0, saved0⟩ := t
          rw [hrec] at h
          have h2 : key :: dis0 = dis := by
            injection h with h3
            exact congrArg (fun p => p.2.1) h3
          rw [← h2, List.mem_cons, ih reqs m0 dis0 saved0 hrec k]
          constructor
          · rintro (rfl | ⟨v, hv, hnv⟩)
            · exact ⟨val, List.mem_cons_self _ _, by simp [hvt]⟩
            · exact ⟨v, List.mem_cons_of_mem _ hv, hnv⟩
          · rintro ⟨v, hv, hnv⟩
            rcases List.mem_cons.mp hv with hv1 | hv2
            · left
              exact congrArg Prod.fst hv1
            · right
              exact ⟨v, hv2, hnv⟩
      | true =>
        rw [hvt] at h
        simp only [if_true] at h
        rcases hud : req.update_due now val.time with ⟨res, req1⟩
        rw [hud] at h
        cases res with
        | error e => cases h
        | ok changed =>
          dsimp only at h
          cases hrec : ReqManager.scheduleLoop now
              (ReqManager.dictInsert reqs key
                (if changed then {req1 with last_scheduled_at := some now}
                 else req1)) rest with
          | error e => rw [hrec] at h; cases h
          | ok t =>
            obtain ⟨m0, dis0, saved0⟩ := t
            rw [hrec] at h
            have h2 : dis0 = dis := by
              injection h with h3
              exact congrArg (fun p => p.2.1) h3
            have hpres := lookup_isSome_dictInsert reqs key
              (if changed then {req1 with last_scheduled_at := some now}
               else req1) (by simp [hlk]) k
            rw [← h2, ih _ m0 dis0 saved0 hrec k]
            constructor
            · rintro ⟨v, hv, hnv⟩
              rw [hpres] at hnv
              exact ⟨v, List.mem_cons_of_mem _ hv, hnv⟩
            · rintro ⟨v, hv, hnv⟩
              rcases List.mem_cons.mp hv with hv1 | hv2
              · exfalso
                apply hnv
                have hk1 : k = key := congrArg Prod.fst hv1
                have hv1b : v = val := congrArg Prod.snd hv1
                subst hk1
                subst hv1b
                exact ⟨by simp [hlk], hvt⟩
              · refine ⟨v, hv2, ?_⟩
                rw [hpres]
                exact hnv

/-! ## C2 -/

/-- A request named "A" with no due date yet. -/
def reqA : Request := { id := "A", estimate := 5, activity := act0 }

/-- A request named "B" with no due date yet. -/
def reqB : Request := { id := "B", estimate := 5, activity := act0 }

/-- A response entry carrying a timezone-aware due time 50. -/
def respB : ReqManager.RespVal := { hasTime := true, time := some ⟨50, true⟩ }

/-- C2, counterexample (Scenario C): two local requests "A" and "B", the
response carries a due time only for "A" — `schedule` never reports "B":
it makes no `end_maintenance` call at all (the reported mapping is `none`),
although "B" is local and absent from the response. -/
theorem c2_counterexample :
    (ReqManager.schedule 100 [("A", reqA), ("B", reqB)]
        [("A", respB)]).map (fun x => x.2.1) = Except.ok none ∧
    (List.lookup "B" [("A", reqA), ("B", reqB)]).isSome = true ∧
    (List.lookup "B" [("A", respB)] : Option ReqManager.RespVal) = none :=
  ⟨by rfl, by rfl, by rfl⟩

/-- C2 (amended): when `schedule()` completes, the ids reported to
`end_maintenance` as deleted are exactly the ids *of the response* whose
request has disappeared locally or whose response entry lacks a time — a
local id absent from the response is never visited and not reported. -/
theorem c2_schedule_reports (now : Int) (reqs : List (String × Request))
    (resp : List (String × ReqManager.RespVal)) (m : List (String × Request))
    (em : Option (List (String × String))) (saved : List String)
    (h : ReqManager.schedule now reqs resp = Except.ok (m, em, saved))
    (k : String) :
    (k, "deleted") ∈ em.getD [] ↔
      ∃ v, (k, v) ∈ resp ∧
        ¬(((reqs.lookup k).isSome = true) ∧ v.hasTime = true) := by
  unfold ReqManager.schedule at h
  cases hrec : ReqManager.scheduleLoop now reqs resp with
  | error e => rw [hrec] at h; cases h
  | ok t =>
    obtain ⟨m0, dis0, saved0⟩ := t
    rw [hrec] at h
    simp only [Except.map] at h
    have hem : (if dis0.isEmpty then none
        else some (dis0.map fun k0 => (k0, "deleted"))) = em := by
      injection h with h3
      exact congrArg (fun p => p.2.1) h3
    rw [← hem]
    rw [← scheduleLoop_disappeared now resp reqs m0 dis0 saved0 hrec k]
    cases hde : dis0.isEmpty with
    | true =>
      rw [List.isEmpty_iff] at hde
      subst hde
      simp
    | false =>
      simp only [Bool.false_eq_true, if_false, Option.getD_some]
      rw [List.mem_map]
      constructor
      · rintro ⟨k0, hk0, hk⟩
        obtain rfl : k0 = k := congrArg Prod.fst hk
        exact hk0
      · intro hk
        exact ⟨k, hk, rfl⟩

/-- C2 witness: one local request "A", a response naming only the unknown
id "B" — "B" is reported to `end_maintenance` as deleted. -/
theorem c2_witness :
    ("B", "deleted") ∈
      (some [("B", "deleted")] : Option (List (String × String))).getD [] :=
  (c2_schedule_reports 0 [("A", reqA)] [("B", respB)] [("A", reqA)]
      (some [("B", "deleted")]) [] (by rfl) "B").mpr
    ⟨respB, by simp, by simp⟩

/-! ## C5 -/

/-- `__lt__` is asymmetric. -/
theorem reqLt_asymm (a b : Request) (h : reqLt a b = true) :
    reqLt b a = false := by
  unfold reqLt at h ⊢
  cases ha : a.next_due <;> cases hb : b.next_due <;> simp_all
  · exact le_of_lt h
  · exact le_of_lt h

/-- The sort comparison `reqLe` is total. -/
theorem reqLe_total (a b : Request) : (reqLe a b || reqLe b a) = true := by
  unfold reqLe
  cases h : reqLt b a
  · simp
  · simp [reqLt_asymm b a h]

/-- `__lt__` is negatively transitive. -/
theorem reqLt_neg_trans (a b c : Request) (h1 : reqLt b a = false)
    (h2 : reqLt c b = false) : reqLt c a = false := by
  unfold reqLt at h1 h2 ⊢
  cases ha : a.next_due <;> cases hb : b.next_due <;> cases hc : c.next_due <;>
    simp_all
  · exact le_trans h1 h2
  · omega

/-- The sort comparison `reqLe` is transitive. -/
theorem reqLe_trans (a b c : Request) (h1 : reqLe a b = true)
    (h2 : reqLe b c = true) : reqLe a c = true := by
  unfold reqLe at h1 h2 ⊢
  simp only [Bool.not_eq_true'] at h1 h2 ⊢
  exact reqLt_neg_trans a b c h1 h2

/-- C5: `runnable()` refreshes every request's state via `update_state`,
yields the `running` ones first (in collection order), and then exactly the
`due`/`tempfail` ones, in a sequence that is a permutation of them sorted
ascending by the Request order (`reqLe`, i.e. not-greater under `__lt__`). -/
theorem c5_runnable_order (now : Int) (reqs : List Request) :
    ∃ B, ReqManager.runnable now reqs =
        ((reqs.map (Request.update_state now)).filter
          (fun r => r.state == State.running)) ++ B ∧
      B.Perm ((reqs.map (Request.update_state now)).filter
        (fun r => r.state == State.due || r.state == State.tempfail)) ∧
      B.Pairwise (fun a b => reqLe a b = true) := by
  refine ⟨_, rfl, List.mergeSort_perm _ _, ?_⟩
  exact List.sorted_mergeSort
    (fun a b c hab hbc => reqLe_trans a b c hab hbc)
    (fun a b => reqLe_total a b) _

/-- A queued request carrying the comment "same". -/
def reqC : Request :=
  { id := "c1", estimate := 1, comment := some "same", activity := act0 }

/-- A new request carrying the same comment "same". -/
def reqD : Request :=
  { id := "d1", estimate := 1, comment := some "same", activity := act0 }

/-- C9 witness: adding a request whose comment duplicates a queued one is a
no-op under `skip_same_comment`, and the same request is registered,
stamped and saved with `skip_same_comment` off. -/
theorem c9_witness :
    ReqManager.add 0 [("c1", reqC)] (some reqD) true =
      (none, [("c1", reqC)], []) ∧
    ReqManager.add 0 [("c1", reqC)] (some reqD) false =
      (some {reqD with dir := some reqD.id, added_at := some 0},
       ReqManager.dictInsert [("c1", reqC)] reqD.id
         {reqD with dir := some reqD.id, added_at := some 0},
       [reqD.id]) := by
  have h := c9_add 0 [("c1", reqC)] reqD
  exact ⟨h.1 "same" rfl (by decide) ⟨("c1", reqC), by simp, rfl⟩, h.2⟩

end FcMaintenance
